import Mathlib

/-!
# Verification of the endless-ssh-rs-with-web core

A shallow embedding of the connection-trickling core of the
`endless-ssh-rs-with-web` repository, together with theorems checking the
natural-language specification against it.

Conventions of the embedding:
* Wall-clock instants (`time::OffsetDateTime`) and durations
  (`time::Duration`, `config.delay`) are modelled as `Int` (nanoseconds).
* `SocketAddr` and `IpAddr` are modelled as opaque identifiers of type `Nat`.
* Machine counters (`u64`, `usize`) are modelled as `Nat` with an explicit
  `% 2 ^ 64` at every point where the source performs machine addition.
* The fallible line write (`sender::sendline`) is modelled by an oracle
  `Client -> Int -> Option Nat`: `some n` is `Ok(n)` (n bytes written),
  `none` is any `Err` (I/O error, EOF, timeout).
* The unbounded mpsc channel that carries `Client` values between the
  acceptor and the scheduler (and back into the scheduler on re-enqueue) is
  modelled as a FIFO `List Client` (head = next value `recv` returns).
-/

namespace EndlessSsh

/-- Modulus of the 64-bit machine counters (`u64` / `usize`). -/
def U64MOD : Nat := 2 ^ 64

/-- Embedding of `Client<S>` from
`src/crates/endless-ssh-rs-with-web/src/client.rs` (the same fields are used
by `src/back-end/src/client_queue.rs`).  The `tcp_stream` field is replaced by
the write oracle and the `permit` field by the admission model below. -/
structure Client where
  time_spent : Int
  send_next : Int
  connected_at : Int
  bytes_sent : Nat
  addr : Nat
  deriving Repr, DecidableEq

/-- `Client::new` from `client.rs`: `time_spent = ZERO`, `bytes_sent = 0`,
`send_next = start_sending_at`. -/
def Client.new (addr : Nat) (connected_at start_sending_at : Int) : Client :=
  { time_spent := 0
    send_next := start_sending_at
    connected_at := connected_at
    bytes_sent := 0
    addr := addr }

/-- `impl PartialEq for Client` (`client.rs`): equality is on `addr` only. -/
def clientEq (a b : Client) : Bool :=
  a.addr == b.addr

/-- `impl Ord for Client` (`client.rs`): `other.send_next.cmp(&self.send_next)`
— the comparison is flipped "to get the oldest first". -/
def clientCmp (a b : Client) : Ordering :=
  compare b.send_next a.send_next

/-- Embedding of `Statistics` from `src/back-end/src/statistics.rs`. -/
structure Statistics where
  bytes_sent : Nat
  connects : Nat
  lost_clients : Nat
  processed_clients : Nat
  time_spent : Int
  deriving Repr, DecidableEq

/-- `Statistics::new`: all totals zero. -/
def Statistics.new : Statistics :=
  { bytes_sent := 0
    connects := 0
    lost_clients := 0
    processed_clients := 0
    time_spent := 0 }

/-- The statistics write in `process_client` before the line write
(`client_queue.rs` lines 69-73): `guard.processed_clients += 1`.
Machine `u64` addition, hence `% 2 ^ 64`. -/
def stats_mark_processed (s : Statistics) : Statistics :=
  { s with processed_clients := (s.processed_clients + 1) % U64MOD }

/-- The statistics write on the success branch of `process_client`
(`client_queue.rs` lines 83-88): `guard.bytes_sent += bytes_sent;
guard.time_spent += config.delay`. -/
def stats_record_success (n : Nat) (delay : Int) (s : Statistics) : Statistics :=
  { s with
    bytes_sent := (s.bytes_sent + n) % U64MOD
    time_spent := s.time_spent + delay }

/-- The statistics write on the failure branch of `process_client`
(`client_queue.rs` lines 96-100): `guard.lost_clients += 1`. -/
def stats_mark_lost (s : Statistics) : Statistics :=
  { s with lost_clients := (s.lost_clients + 1) % U64MOD }

/-- Embedding of `process_client` from `src/back-end/src/client_queue.rs`.

The function: sleeps until `client.send_next` when that instant is still in
the future (the write therefore happens at `max now client.send_next`, which
the embedding returns as the third component), increments
`processed_clients`, attempts one line write, and then either updates the
client and the statistics and returns the client for re-enqueueing
(`Some client`), or marks the client lost and returns `none` so the client
is dropped. -/
def process_client (delay : Int) (oracle : Client → Int → Option Nat)
    (now : Int) (client : Client) (stats : Statistics) :
    Option Client × Statistics × Int :=
  let t := max now client.send_next
  let stats := stats_mark_processed stats
  match oracle client t with
  | some n =>
      let client :=
        { client with
          bytes_sent := (client.bytes_sent + n) % U64MOD
          time_spent := client.time_spent + delay }
      let stats := stats_record_success n delay stats
      let client := { client with send_next := t + delay }
      (some client, stats, t)
  | none =>
      let stats := stats_mark_lost stats
      (none, stats, t)

/-- State of the scheduler loop `process_clients_forever`
(`client_queue.rs`).  `queue` is the contents of the client mpsc channel in
receive order; `now` the current instant; `log` records, in service order,
which client address was written to and at which instant (observation trace
of the embedding, not program state). -/
structure SchedState where
  queue : List Client
  now : Int
  stats : Statistics
  log : List (Nat × Int)
  deriving Repr, DecidableEq

/-- One pass of the `received_client = Some(client)` branch of the main loop
of `process_clients_forever`: receive the head of the channel, run
`process_client` on it, and on `Some` send the updated client back into the
same channel (it re-enters at the back).  On an empty channel nothing
happens (`recv` would suspend). -/
def schedStep (delay : Int) (oracle : Client → Int → Option Nat)
    (st : SchedState) : SchedState :=
  match st.queue with
  | [] => st
  | client :: rest =>
      match process_client delay oracle st.now client st.stats with
      | (some client', stats', t) =>
          { queue := rest ++ [client']
            now := t
            stats := stats'
            log := st.log ++ [(client.addr, t)] }
      | (none, stats', t) =>
          { queue := rest
            now := t
            stats := stats'
            log := st.log ++ [(client.addr, t)] }

/-- Outcome of one `tokio::select!` arm of `process_clients_forever`. -/
inductive SchedEvent
  | cancelled
  | channelClosed
  | received
  deriving Repr, DecidableEq

/-- One full iteration of the `loop { tokio::select! { ... } }` of
`process_clients_forever`; the `Bool` is `true` when the iteration `break`s
out of the loop.  Cancellation and a closed channel break; receiving a
client never does (in the embedding the loop owns the channel, so the
re-enqueue send cannot fail). -/
def loopIter (delay : Int) (oracle : Client → Int → Option Nat)
    (ev : SchedEvent) (st : SchedState) : SchedState × Bool :=
  match ev with
  | .cancelled => (st, true)
  | .channelClosed => (st, true)
  | .received => (schedStep delay oracle st, false)

/-- Iterated scheduler steps (`n` consecutive received clients). -/
def schedRun (delay : Int) (oracle : Client → Int → Option Nat) :
    Nat → SchedState → SchedState
  | 0, st => st
  | n + 1, st => schedRun delay oracle n (schedStep delay oracle st)

/-- Embedding of `ClientEvent` from
`src/crates/endless-ssh-rs-with-web/src/events.rs`. -/
inductive ClientEvent
  | Connected (ip : Nat) (addr : Nat) (connected_at : Int)
  | Disconnected (addr : Nat) (connected_at : Int) (disconnected_at : Int)
      (time_spent : Int) (bytes_sent : Nat)
  deriving Repr, DecidableEq

/-- Embedding of `impl Drop for Client`
(`src/crates/endless-ssh-rs-with-web/src/client.rs` lines 107-136): at the
instant `now` (`disconnected_at = OffsetDateTime::now_utc()`) it sends one
`Disconnected` event on the broadcast channel, and then the `permit` field is
dropped, returning exactly one permit to the admission semaphore.  Result:
the emitted events and the number of permits released. -/
def drop_client (c : Client) (now : Int) : List ClientEvent × Nat :=
  ([ClientEvent.Disconnected c.addr c.connected_at now c.time_spent c.bytes_sent], 1)

/-- Dropping every client still held when the scheduler stops (shutdown
path): each held client is destroyed in turn. -/
def drain_clients (now : Int) : List Client → List ClientEvent
  | [] => []
  | c :: rest => (drop_client c now).1 ++ drain_clients now rest

/-- State of the admission semaphore together with the number of live
(admitted, not yet destroyed) Clients.  `available` is
`semaphore.available_permits()`. -/
structure AdmState where
  available : Nat
  live : Nat
  deriving Repr, DecidableEq

/-- The two admission-relevant transitions.  `acquire`: the acceptor obtains a
permit and constructs a Client that owns it; `dropClient`: a Client is
destroyed and its permit is returned. -/
inductive AdmOp
  | acquire
  | dropClient
  deriving Repr, DecidableEq

/-- Modelled from the spec: the acceptor (`listener.rs`) is not under
`src/`; per §4.A it waits for a permit on the semaphore before constructing
a Client.  The semaphore itself is from `src/crates/.../main.rs` line 237
(`Semaphore::new(config.max_clients)`) and permit ownership from the
`permit: OwnedSemaphorePermit` field of `Client` (`client.rs`).  `acquire`
requires an available permit; `dropClient` requires a live Client. -/
def admApply (op : AdmOp) (s : AdmState) : Option AdmState :=
  match op with
  | .acquire => if s.available = 0 then none else some ⟨s.available - 1, s.live + 1⟩
  | .dropClient => if s.live = 0 then none else some ⟨s.available + 1, s.live - 1⟩

/-- Run a sequence of admission transitions. -/
def admRun (ops : List AdmOp) (s : AdmState) : Option AdmState :=
  match ops with
  | [] => some s
  | op :: rest => (admApply op s).bind (admRun rest)

/-- Initial admission state: a fresh semaphore of capacity `maxClients`
(`Semaphore::new(config.max_clients.get().into())`), no live Clients. -/
def admInit (maxClients : Nat) : AdmState :=
  { available := maxClients, live := 0 }

/-- Modelled from the spec: `line.rs` / `sender.rs` are not under `src/`.
Per §4.L the first content byte is drawn from printable ASCII
`[0x20, 0x7E]` excluding `'S'` (0x53): the 94 remaining values, indexed by
the random draw `r`. -/
def pick_non_s (r : Nat) : Nat :=
  let v := 32 + r % 94
  if 83 ≤ v then v + 1 else v

/-- Modelled from the spec: a non-leading content byte, drawn from the 95
printable ASCII values `[0x20, 0x7E]`. -/
def pick_printable (r : Nat) : Nat :=
  32 + r % 95

/-- Modelled from the spec: the `count` content bytes of a line
(`count = n - 2`); position 0 avoids `'S'`, the others are any printable
byte.  `bytes i` is the i-th random draw. -/
def line_content (count : Nat) (bytes : Nat → Nat) : List Nat :=
  (List.range count).map fun i =>
    if i = 0 then pick_non_s (bytes i) else pick_printable (bytes i)

/-- Modelled from the spec: `generate_line(max_len)` (§4.L) — a byte
sequence of total length `n ∈ [3, max_len]` ending in `"\r\n"` (13, 10),
whose `n - 2` content bytes are printable ASCII with no leading `'S'`.
The random length draw `lenChoice` selects `n = 3 + lenChoice % (max_len - 2)`
uniformly in `[3, max_len]`, so the content has `1 + lenChoice % (max_len - 2)`
bytes. -/
def generate_line (maxLen lenChoice : Nat) (bytes : Nat → Nat) : List Nat :=
  line_content (1 + lenChoice % (maxLen - 2)) bytes ++ [13, 10]

/-- Embedding of `Config` (fields per the spec's §3; `config.rs` is not
under `src/`, but every field here is read at the cited call sites). -/
structure Config where
  max_clients : Nat
  delay : Int
  max_line_length : Nat
  port : Nat
  deriving Repr, DecidableEq

/-- The `raw_os_error` classification of an accept error in the match of
`src/src/main.rs` lines 108-140. -/
inductive AcceptErrorKind
  | emfile
  | enfile
  | econnaborted
  | eintr
  | enobufs
  | enomem
  | eproto
  | other (code : Int)
  deriving Repr, DecidableEq

/-- Embedding of the accept-error arm of the main loop of
`src/src/main.rs` (lines 108-140).  `len` is `clients.len()`.
`EMFILE`: executes `config.max_clients = clients.len().try_into()?` —
`max_clients` is a NonZero integer, so with zero connected clients the
conversion fails and the `?` returns the error out of `main` (fatal);
otherwise `max_clients` becomes `len` and the loop continues.  The six
other classified errnos log and continue with `config` untouched; any
other error is `return Err(error)` out of `main` — modelled as
`.error ()` (the process terminates with a non-zero exit). -/
def accept_error_step (config : Config) (len : Nat) (kind : AcceptErrorKind) :
    Except Unit Config :=
  match kind with
  | .emfile =>
      if len = 0 then .error () else .ok { config with max_clients := len }
  | .enfile => .ok config
  | .econnaborted => .ok config
  | .eintr => .ok config
  | .enobufs => .ok config
  | .enomem => .ok config
  | .eproto => .ok config
  | .other _ => .error ()

/-! ## Theorems -/

/-- C10: `Client` equality compares only `addr` (it is unchanged by any
change of `send_next`), ordering compares only `send_next` (unchanged by any
change of `addr`) and is the flipped comparison (the earlier-due client is
the greater element), and the two disagree: a pair of clients with equal
`send_next` but different `addr` compares `Ordering.eq` under `clientCmp`
while `clientEq` returns `false`, so `Ord` is not consistent with
`PartialEq`. -/
theorem client_ord_inconsistent_with_eq :
    (∀ a b : Client, ∀ x y : Int,
      clientEq { a with send_next := x } { b with send_next := y } = clientEq a b) ∧
    (∀ a b : Client, ∀ x y : Nat,
      clientCmp { a with addr := x } { b with addr := y } = clientCmp a b) ∧
    (∀ a b : Client, clientCmp a b = compare b.send_next a.send_next) ∧
    (∃ a b : Client,
      a.send_next = b.send_next ∧ a.addr ≠ b.addr ∧
      clientCmp a b = Ordering.eq ∧ clientEq a b = false) := by
  refine ⟨fun a b x y => rfl, fun a b x y => rfl, fun a b => rfl, ?_⟩
  exact ⟨Client.new 0 0 5, Client.new 1 0 5, rfl, by decide, by decide, by decide⟩

/-- C1 (counterexample): with two clients held at once — addr 0 due at
instant 10 received first, addr 1 due at instant 5 received second — the
scheduler writes to addr 0 (the later-due client) before addr 1, so service
order is not `send_next`-ascending. -/
theorem service_order_not_send_next_ascending :
    (schedRun 1 (fun _ _ => none) 2
        ⟨[Client.new 0 0 10, Client.new 1 0 5], 0, Statistics.new, []⟩).log
      = [(0, 10), (1, 10)] ∧
    (Client.new 1 0 5).send_next < (Client.new 0 0 10).send_next := by
  constructor
  · decide
  · decide

/-- C1 (amended): the scheduler services clients in FIFO channel-arrival
order, not by `send_next`: the next client written to is always the head of
the channel, at instant `max now head.send_next` (so never before its own
deadline), regardless of the deadlines of the other held clients; the
serviced client is either dropped or re-enqueued at the back. -/
theorem service_order_fifo_arrival (delay : Int)
    (oracle : Client → Int → Option Nat) (client : Client) (rest : List Client)
    (now : Int) (stats : Statistics) (log : List (Nat × Int)) :
    (schedStep delay oracle ⟨client :: rest, now, stats, log⟩).log
        = log ++ [(client.addr, max now client.send_next)] ∧
    client.send_next ≤ max now client.send_next ∧
    ((schedStep delay oracle ⟨client :: rest, now, stats, log⟩).queue = rest ∨
      ∃ c', (schedStep delay oracle ⟨client :: rest, now, stats, log⟩).queue
              = rest ++ [c']) := by
  cases h : oracle client (max now client.send_next) with
  | none =>
      refine ⟨?_, le_max_right _ _, Or.inl ?_⟩ <;>
        simp [schedStep, process_client, h]
  | some n =>
      refine ⟨?_, le_max_right _ _, Or.inr
        ⟨{ client with
            bytes_sent := (client.bytes_sent + n) % U64MOD
            time_spent := client.time_spent + delay
            send_next := max now client.send_next + delay }, ?_⟩⟩ <;>
        simp [schedStep, process_client, h]

/-- C7 (counterexample): an accept error outside the classified errnos
(here raw os error 13) makes `main` return `Err`, terminating the accept
loop and the process — refuting that no accept error is fatal. -/
theorem unclassified_accept_error_fatal :
    accept_error_step
        { max_clients := 4096, delay := 10, max_line_length := 32, port := 22 }
        7 (AcceptErrorKind.other 13)
      = Except.error () := rfl

/-- C7 (amended): accept-error handling in `main`: `EMFILE` with at least
one connected client lowers `config.max_clients` to the current client
count and continues, but with zero connected clients the NonZero
conversion `clients.len().try_into()?` fails and `main` returns the error —
`EMFILE` is then fatal too; the six other classified errnos log and
continue with the config untouched; every unclassified accept error is
fatal (`main` returns the error and the process exits non-zero).  No
permit is involved: this accept loop has no admission semaphore. -/
theorem accept_error_outcomes (cfg : Config) (len : Nat) (code : Int) :
    accept_error_step cfg 0 AcceptErrorKind.emfile = Except.error () ∧
    accept_error_step cfg (len + 1) AcceptErrorKind.emfile
        = Except.ok { cfg with max_clients := len + 1 } ∧
    accept_error_step cfg len AcceptErrorKind.enfile = Except.ok cfg ∧
    accept_error_step cfg len AcceptErrorKind.econnaborted = Except.ok cfg ∧
    accept_error_step cfg len AcceptErrorKind.eintr = Except.ok cfg ∧
    accept_error_step cfg len AcceptErrorKind.enobufs = Except.ok cfg ∧
    accept_error_step cfg len AcceptErrorKind.enomem = Except.ok cfg ∧
    accept_error_step cfg len AcceptErrorKind.eproto = Except.ok cfg ∧
    accept_error_step cfg len (AcceptErrorKind.other code) = Except.error () := by
  refine ⟨rfl, ?_, rfl, rfl, rfl, rfl, rfl, rfl, rfl⟩
  simp [accept_error_step]

/-- C8 (counterexample): on an `EMFILE` accept error with 10 connected
clients, the handler mutates the config: `max_clients` changes from 4096 to
10 — refuting that no field of `Config` is ever mutated after startup. -/
theorem emfile_mutates_config :
    accept_error_step
        { max_clients := 4096, delay := 10, max_line_length := 32, port := 22 }
        10 AcceptErrorKind.emfile
      = Except.ok { max_clients := 10, delay := 10, max_line_length := 32, port := 22 } ∧
    (10 : Nat) ≠ 4096 := ⟨rfl, by decide⟩

/-- C8 (amended): `Config` is read-only after startup except for one path:
the `EMFILE` accept-error branch, which sets `max_clients` to the current
client count.  Whenever the loop continues, `delay`, `max_line_length` and
`port` are unchanged, and the config is either wholly unchanged or the
`EMFILE` branch wrote `max_clients := len`. -/
theorem config_mutation_only_emfile (cfg : Config) (len : Nat)
    (kind : AcceptErrorKind) (cfg' : Config)
    (h : accept_error_step cfg len kind = Except.ok cfg') :
    cfg'.delay = cfg.delay ∧
    cfg'.max_line_length = cfg.max_line_length ∧
    cfg'.port = cfg.port ∧
    (cfg' = cfg ∨ (kind = AcceptErrorKind.emfile ∧ cfg'.max_clients = len)) := by
  cases kind with
  | emfile =>
      simp only [accept_error_step] at h
      split at h
      · exact absurd h (by simp)
      · injection h with h
        subst h
        simp
  | other code => simp [accept_error_step] at h
  | enfile => simp [accept_error_step] at h; subst h; simp
  | econnaborted => simp [accept_error_step] at h; subst h; simp
  | eintr => simp [accept_error_step] at h; subst h; simp
  | enobufs => simp [accept_error_step] at h; subst h; simp
  | enomem => simp [accept_error_step] at h; subst h; simp
  | eproto => simp [accept_error_step] at h; subst h; simp

/-- C2: when the line write succeeds with `n` bytes, the client's
`bytes_sent` grows by exactly `n`, its `time_spent` by exactly
`config.delay`, its `send_next` becomes the post-write instant plus
`config.delay`, the aggregate statistics gain exactly
`{bytes: n, delay: config.delay, processed: +1}` (lost and connects
untouched), and the client is re-enqueued at the back of the scheduler's
channel.  The arithmetic hypotheses say the 64-bit counters do not
overflow at this step. -/
theorem process_success_updates (delay : Int)
    (oracle : Client → Int → Option Nat) (client : Client) (rest : List Client)
    (now : Int) (stats : Statistics) (n : Nat) (log : List (Nat × Int))
    (ho : oracle client (max now client.send_next) = some n)
    (hcb : client.bytes_sent + n < U64MOD)
    (hsb : stats.bytes_sent + n < U64MOD)
    (hsp : stats.processed_clients + 1 < U64MOD) :
    ∃ c' stats',
      process_client delay oracle now client stats
          = (some c', stats', max now client.send_next) ∧
      c'.bytes_sent = client.bytes_sent + n ∧
      c'.time_spent = client.time_spent + delay ∧
      c'.send_next = max now client.send_next + delay ∧
      c'.addr = client.addr ∧
      c'.connected_at = client.connected_at ∧
      stats'.bytes_sent = stats.bytes_sent + n ∧
      stats'.time_spent = stats.time_spent + delay ∧
      stats'.processed_clients = stats.processed_clients + 1 ∧
      stats'.lost_clients = stats.lost_clients ∧
      stats'.connects = stats.connects ∧
      schedStep delay oracle ⟨client :: rest, now, stats, log⟩
          = ⟨rest ++ [c'], max now client.send_next, stats',
             log ++ [(client.addr, max now client.send_next)]⟩ := by
  have e1 : process_client delay oracle now client stats
      = (some { client with
            bytes_sent := (client.bytes_sent + n) % U64MOD
            time_spent := client.time_spent + delay
            send_next := max now client.send_next + delay },
          stats_record_success n delay (stats_mark_processed stats),
          max now client.send_next) := by
    simp [process_client, ho]
  refine ⟨_, _, e1, ?_, rfl, rfl, rfl, rfl, ?_, rfl, ?_, rfl, rfl, ?_⟩
  · exact Nat.mod_eq_of_lt hcb
  · exact Nat.mod_eq_of_lt hsb
  · exact Nat.mod_eq_of_lt hsp
  · simp [schedStep, e1]

/-- Witness for `process_success_updates`: delay 7, a client due at
instant 10 received at instant 0 with fresh statistics, a write that
reports 5 bytes. -/
theorem process_success_updates_witness :
    ∃ c' stats',
      process_client 7 (fun _ _ => some 5) 0 (Client.new 1 0 10) Statistics.new
          = (some c', stats', max 0 (Client.new 1 0 10).send_next) ∧
      c'.bytes_sent = (Client.new 1 0 10).bytes_sent + 5 ∧
      c'.time_spent = (Client.new 1 0 10).time_spent + 7 ∧
      c'.send_next = max 0 (Client.new 1 0 10).send_next + 7 ∧
      c'.addr = (Client.new 1 0 10).addr ∧
      c'.connected_at = (Client.new 1 0 10).connected_at ∧
      stats'.bytes_sent = Statistics.new.bytes_sent + 5 ∧
      stats'.time_spent = Statistics.new.time_spent + 7 ∧
      stats'.processed_clients = Statistics.new.processed_clients + 1 ∧
      stats'.lost_clients = Statistics.new.lost_clients ∧
      stats'.connects = Statistics.new.connects ∧
      schedStep 7 (fun _ _ => some 5) ⟨[Client.new 1 0 10], 0, Statistics.new, []⟩
          = ⟨[] ++ [c'], max 0 (Client.new 1 0 10).send_next, stats',
             [] ++ [((Client.new 1 0 10).addr, max 0 (Client.new 1 0 10).send_next)]⟩ :=
  process_success_updates 7 (fun _ _ => some 5) (Client.new 1 0 10) [] 0
    Statistics.new 5 [] rfl (by decide) (by decide) (by decide)

/-- C3 (counterexample): a failing write changes more than `lost`: with
fresh statistics and a client whose write fails, `processed_clients` also
goes from 0 to 1 (the scheduler counts a client as processed before
attempting the write), so `lost` is not the only statistics change. -/
theorem write_failure_also_increments_processed :
    (schedStep 7 (fun _ _ => none)
        ⟨[Client.new 1 0 10], 0, Statistics.new, []⟩).stats.processed_clients = 1 ∧
    (schedStep 7 (fun _ _ => none)
        ⟨[Client.new 1 0 10], 0, Statistics.new, []⟩).stats.lost_clients = 1 ∧
    Statistics.new.processed_clients = 0 := by
  refine ⟨?_, ?_, rfl⟩ <;> decide

/-- C3 (amended): when the line write fails, the statistics change is
`lost_clients + 1` together with the unconditional `processed_clients + 1`
(counted before the write attempt); bytes, connects and time totals are
untouched; the client is removed from the queue and not re-enqueued (it is
dropped); and the loop iteration reports no break — a write error is never
fatal to the scheduler. -/
theorem write_failure_effects (delay : Int)
    (oracle : Client → Int → Option Nat) (client : Client) (rest : List Client)
    (now : Int) (stats : Statistics) (log : List (Nat × Int))
    (ho : oracle client (max now client.send_next) = none)
    (hsl : stats.lost_clients + 1 < U64MOD)
    (hsp : stats.processed_clients + 1 < U64MOD) :
    ∃ stats',
      loopIter delay oracle SchedEvent.received ⟨client :: rest, now, stats, log⟩
          = (⟨rest, max now client.send_next, stats',
              log ++ [(client.addr, max now client.send_next)]⟩, false) ∧
      stats'.lost_clients = stats.lost_clients + 1 ∧
      stats'.processed_clients = stats.processed_clients + 1 ∧
      stats'.bytes_sent = stats.bytes_sent ∧
      stats'.connects = stats.connects ∧
      stats'.time_spent = stats.time_spent := by
  refine ⟨stats_mark_lost (stats_mark_processed stats), ?_, ?_, ?_, rfl, rfl, rfl⟩
  · simp [loopIter, schedStep, process_client, ho]
  · exact Nat.mod_eq_of_lt hsl
  · exact Nat.mod_eq_of_lt hsp

/-- Witness for `write_failure_effects`: delay 7, a client due at instant
10 received at instant 0 with fresh statistics, a failing write. -/
theorem write_failure_effects_witness :
    ∃ stats',
      loopIter 7 (fun _ _ => none) SchedEvent.received
          ⟨[Client.new 1 0 10], 0, Statistics.new, []⟩
        = (⟨[], max 0 (Client.new 1 0 10).send_next, stats',
            [] ++ [((Client.new 1 0 10).addr, max 0 (Client.new 1 0 10).send_next)]⟩,
           false) ∧
      stats'.lost_clients = Statistics.new.lost_clients + 1 ∧
      stats'.processed_clients = Statistics.new.processed_clients + 1 ∧
      stats'.bytes_sent = Statistics.new.bytes_sent ∧
      stats'.connects = Statistics.new.connects ∧
      stats'.time_spent = Statistics.new.time_spent :=
  write_failure_effects 7 (fun _ _ => none) (Client.new 1 0 10) [] 0
    Statistics.new [] rfl (by decide) (by decide)

/-- Iterating the `processed_clients += 1` statistics write accumulates
modulo `2 ^ 64`. -/
lemma stats_mark_processed_iterate (k : Nat) (s : Statistics) :
    (stats_mark_processed^[k + 1] s).processed_clients
      = (s.processed_clients + (k + 1)) % U64MOD := by
  induction k generalizing s with
  | zero => simp [stats_mark_processed]
  | succ k ih =>
      rw [Function.iterate_succ_apply, ih]
      simp only [stats_mark_processed, Nat.mod_add_mod]
      congr 1
      omega

/-- C9 (counterexample): the counters are not updated by saturating
addition: after `2 ^ 64` processed-client updates starting from fresh
statistics the `processed_clients` counter reads 0, having read
`2 ^ 64 - 1` one update earlier — the sequence of updates wrapped the
counter around its maximum. -/
theorem stats_counter_wraps :
    (stats_mark_processed^[2 ^ 64] Statistics.new).processed_clients = 0 ∧
    (stats_mark_processed^[2 ^ 64 - 1] Statistics.new).processed_clients
      = 2 ^ 64 - 1 := by
  constructor
  · have h : (2 : Nat) ^ 64 = (2 ^ 64 - 1) + 1 := by norm_num
    rw [h, stats_mark_processed_iterate]
    simp [Statistics.new, U64MOD]
  · have h : (2 : Nat) ^ 64 - 1 = (2 ^ 64 - 2) + 1 := by norm_num
    rw [h, stats_mark_processed_iterate]
    have : Statistics.new.processed_clients = 0 := rfl
    rw [this, Nat.zero_add, Nat.mod_eq_of_lt (by norm_num [U64MOD])]

/-- C9 (amended): the statistics writes performed by `process_client` are
plain 64-bit machine additions, i.e. addition modulo `2 ^ 64`, not
saturating: each update adds its delta mod `2 ^ 64`, and iterating the
processed-update accumulates mod `2 ^ 64` (so a long enough sequence of
updates wraps a counter). -/
theorem stats_updates_wrap_mod_u64 (s : Statistics) (n : Nat) (delay : Int)
    (k : Nat) :
    (stats_mark_processed s).processed_clients
        = (s.processed_clients + 1) % U64MOD ∧
    (stats_mark_lost s).lost_clients = (s.lost_clients + 1) % U64MOD ∧
    (stats_record_success n delay s).bytes_sent = (s.bytes_sent + n) % U64MOD ∧
    (stats_record_success n delay s).time_spent = s.time_spent + delay ∧
    (stats_mark_processed^[k + 1] s).processed_clients
        = (s.processed_clients + (k + 1)) % U64MOD :=
  ⟨rfl, rfl, rfl, rfl, stats_mark_processed_iterate k s⟩

/-- Witness for `config_mutation_only_emfile` at a concrete input: an
`EINTR` accept error with the default config leaves it unchanged. -/
theorem config_mutation_only_emfile_witness :
    (10 : Int) = 10 ∧ (32 : Nat) = 32 ∧ (22 : Nat) = 22 ∧
    (({ max_clients := 4096, delay := 10, max_line_length := 32, port := 22 } : Config)
        = { max_clients := 4096, delay := 10, max_line_length := 32, port := 22 } ∨
      (AcceptErrorKind.eintr = AcceptErrorKind.emfile ∧ (4096 : Nat) = 5)) := by
  exact config_mutation_only_emfile
    { max_clients := 4096, delay := 10, max_line_length := 32, port := 22 } 5
    AcceptErrorKind.eintr
    { max_clients := 4096, delay := 10, max_line_length := 32, port := 22 } rfl

/-- Draining drops each held client once: one event per client. -/
lemma drain_clients_length (now : Int) (cs : List Client) :
    (drain_clients now cs).length = cs.length := by
  induction cs with
  | nil => rfl
  | cons c rest ih => simp [drain_clients, drop_client, ih]

/-- C4: destroying a Client emits exactly one `Disconnected` event — carrying
its `addr`, `connected_at`, the destruction-time `disconnected_at`, its
`time_spent` and its `bytes_sent` — and releases exactly one admission
permit; and on the shutdown path, draining the held clients destroys each
exactly once (one event per held client, the head's event first). -/
theorem drop_client_exactly_once (c : Client) (now : Int) (cs : List Client) :
    (drop_client c now).1
        = [ClientEvent.Disconnected c.addr c.connected_at now c.time_spent c.bytes_sent] ∧
    (drop_client c now).2 = 1 ∧
    (drain_clients now cs).length = cs.length ∧
    drain_clients now (c :: cs)
        = ClientEvent.Disconnected c.addr c.connected_at now c.time_spent c.bytes_sent
            :: drain_clients now cs :=
  ⟨rfl, rfl, drain_clients_length now cs, rfl⟩

/-- A single admission transition preserves `available + live`. -/
lemma admApply_sum {op : AdmOp} {s s' : AdmState}
    (h : admApply op s = some s') :
    s'.available + s'.live = s.available + s.live := by
  cases op with
  | acquire =>
      simp only [admApply] at h
      split at h
      · exact absurd h (by simp)
      · rename_i h0
        obtain rfl := Option.some.inj h
        show s.available - 1 + (s.live + 1) = s.available + s.live
        omega
  | dropClient =>
      simp only [admApply] at h
      split at h
      · exact absurd h (by simp)
      · rename_i h0
        obtain rfl := Option.some.inj h
        show s.available + 1 + (s.live - 1) = s.available + s.live
        omega

/-- Any run of admission transitions preserves `available + live`. -/
lemma admRun_sum (ops : List AdmOp) :
    ∀ s s' : AdmState, admRun ops s = some s' →
      s'.available + s'.live = s.available + s.live := by
  induction ops with
  | nil =>
      intro s s' h
      simp [admRun] at h
      simp [h]
  | cons op rest ih =>
      intro s s' h
      simp only [admRun, Option.bind_eq_some] at h
      obtain ⟨s₁, h₁, h₂⟩ := h
      rw [ih s₁ s' h₂, admApply_sum h₁]

/-- C5: every state reachable from a fresh semaphore of capacity
`maxClients` with no live Clients — by any interleaving of admissions
(permit acquired, Client constructed) and Client destructions (permit
released) — has at most `maxClients` live Clients. -/
theorem live_clients_le_max_clients (maxClients : Nat) (ops : List AdmOp)
    (s' : AdmState) (h : admRun ops (admInit maxClients) = some s') :
    s'.live ≤ maxClients := by
  have hsum := admRun_sum ops (admInit maxClients) s' h
  simp [admInit] at hsum
  omega

/-- Witness for `live_clients_le_max_clients`: capacity 2, two admissions
followed by one destruction leave one live Client, at most 2. -/
theorem live_clients_le_max_clients_witness : (AdmState.mk 1 1).live ≤ 2 :=
  live_clients_le_max_clients 2 [AdmOp.acquire, AdmOp.acquire, AdmOp.dropClient]
    ⟨1, 1⟩ (by decide)

/-- The leading content byte is printable ASCII and never `'S'` (83). -/
lemma pick_non_s_bounds (r : Nat) :
    32 ≤ pick_non_s r ∧ pick_non_s r ≤ 126 ∧ pick_non_s r ≠ 83 := by
  have h94 : r % 94 < 94 := Nat.mod_lt _ (by norm_num)
  simp only [pick_non_s]
  split <;> omega

/-- Any non-leading content byte is printable ASCII. -/
lemma pick_printable_bounds (r : Nat) :
    32 ≤ pick_printable r ∧ pick_printable r ≤ 126 := by
  have h95 : r % 95 < 95 := Nat.mod_lt _ (by norm_num)
  simp only [pick_printable]
  omega

/-- C6: for every `maxLen ≥ 3` and every draw of the randomness, the
generated line is `content ++ "\r\n"` with `1 ≤ content.length`, total
length `n = content.length + 2` satisfying `3 ≤ n ≤ maxLen`, every content
byte in the printable range `[0x20, 0x7E]`, and the byte at position 0 of
the line never `'S'` (83). -/
theorem generate_line_spec (maxLen lenChoice : Nat) (bytes : Nat → Nat)
    (h : 3 ≤ maxLen) :
    ∃ content : List Nat,
      generate_line maxLen lenChoice bytes = content ++ [13, 10] ∧
      1 ≤ content.length ∧
      (generate_line maxLen lenChoice bytes).length = content.length + 2 ∧
      content.length + 2 ≤ maxLen ∧
      (∀ b ∈ content, 32 ≤ b ∧ b ≤ 126) ∧
      (generate_line maxLen lenChoice bytes).head? ≠ some 83 := by
  have hm : lenChoice % (maxLen - 2) < maxLen - 2 := Nat.mod_lt _ (by omega)
  refine ⟨line_content (1 + lenChoice % (maxLen - 2)) bytes, rfl, ?_, ?_, ?_, ?_, ?_⟩
  · simp [line_content]
  · simp [generate_line, line_content]
  · simp only [line_content, List.length_map, List.length_range]
    omega
  · intro b hb
    simp only [line_content, List.mem_map, List.mem_range] at hb
    obtain ⟨i, _, hib⟩ := hb
    by_cases hi : i = 0
    · rw [hi] at hib
      simp at hib
      have := pick_non_s_bounds (bytes 0)
      omega
    · rw [if_neg hi] at hib
      have := pick_printable_bounds (bytes i)
      omega
  · have hcons : line_content (1 + lenChoice % (maxLen - 2)) bytes
        = pick_non_s (bytes 0)
            :: (List.range (lenChoice % (maxLen - 2))).map
                (fun i => if i + 1 = 0 then pick_non_s (bytes (i + 1))
                  else pick_printable (bytes (i + 1))) := by
      simp only [line_content, Nat.add_comm 1 (lenChoice % (maxLen - 2)),
        List.range_succ_eq_map, List.map_cons, List.map_map]
      simp [Function.comp]
    have hb := pick_non_s_bounds (bytes 0)
    simp only [generate_line, hcons, List.cons_append, List.head?_cons]
    intro hq
    exact hb.2.2 (Option.some.inj hq)

/-- Witness for `generate_line_spec`: `maxLen = 5` with the all-zero
randomness draw. -/
theorem generate_line_spec_witness :
    ∃ content : List Nat,
      generate_line 5 0 (fun _ => 0) = content ++ [13, 10] ∧
      1 ≤ content.length ∧
      (generate_line 5 0 (fun _ => 0)).length = content.length + 2 ∧
      content.length + 2 ≤ 5 ∧
      (∀ b ∈ content, 32 ≤ b ∧ b ≤ 126) ∧
      (generate_line 5 0 (fun _ => 0)).head? ≠ some 83 :=
  generate_line_spec 5 0 (fun _ => 0) (by decide)

end EndlessSsh
